import Mathlib

/-!
Verification of the QuickQuake poller (src/main.py) against its specification.

Shallow embedding conventions:
* Python floats (magnitudes, coordinates, depth) are modelled as `ℚ`; every
  constant compared against in the program (2.5, 4.0, 6.0, the bounding box)
  is exactly representable, so the comparisons agree with the source.
* Epoch-millisecond timestamps are modelled as `Int`.
* The LINE messaging SDK is an external collaborator: one channel call is
  modelled by a `ChannelResult` (success, an exception carrying
  status_code 429, or any other exception), and a whole run of the program
  is parameterised by the function `Nat → ChannelResult` giving the channel
  outcome of each attempt.
* Numeric/time string rendering (Python format specifiers and the
  pytz/strftime pipeline) are external collaborators per the spec; they are
  abstracted as a `Render` record of functions, and every theorem is
  universally quantified over it.
* A Python exception escaping the scanned code is modelled by an explicit
  error value (`CycleOutcome.error`, `Except.error`).
-/

/-! ## Constants (src/main.py lines 28-32, 57-58) -/

def LAT_MIN : ℚ := 5
def LAT_MAX : ℚ := 22
def LON_MIN : ℚ := 92
def LON_MAX : ℚ := 108

/-- 2.5, written with `mkRat` so that comparisons against it evaluate. -/
def MIN_MAGNITUDE : ℚ := mkRat 5 2

def CHECK_INTERVAL : Nat := 60

def MESSAGE_DELAY : Nat := 5

def max_retries : Nat := 5

def retry_delay : Nat := 5

/-! ## RegionFilter (src/main.py lines 49-50) -/

/-- `is_near_thailand(lat, lon)`: chained inclusive comparisons
`LAT_MIN <= lat <= LAT_MAX and LON_MIN <= lon <= LON_MAX`. -/
def is_near_thailand (lat lon : ℚ) : Bool :=
  decide (LAT_MIN ≤ lat ∧ lat ≤ LAT_MAX ∧ LON_MIN ≤ lon ∧ lon ≤ LON_MAX)

/-- The magnitude guard of the scan loop (src/main.py line 112):
`if not magnitude or magnitude < MIN_MAGNITUDE: continue`.  A record passes
when the guard does not fire.  `props.get("mag")` yields `none` when the key
is absent; Python truthiness makes a present magnitude of `0.0` falsy too,
hence the explicit `m = 0` disjunct. -/
def passes_magnitude (mag : Option ℚ) : Bool :=
  match mag with
  | none => false
  | some m => ! decide (m = 0 ∨ m < MIN_MAGNITUDE)

/-- The full qualification test applied by the scan loop (lines 110-116):
magnitude guard and bounding-box guard. -/
def event_qualifies (mag : Option ℚ) (lat lon : ℚ) : Bool :=
  passes_magnitude mag && is_near_thailand lat lon

/-! ## NotificationDispatcher (src/main.py lines 53-88) -/

/-- Outcome of one call into the LINE SDK (`line_bot_api.broadcast`), as the
`except` clause of `send_line_notification` classifies it:
`ok` = no exception, `rateLimited` = exception with `status_code == 429`,
`fatal` = any other exception. -/
inductive ChannelResult where
  | ok : ChannelResult
  | rateLimited : ChannelResult
  | fatal : ChannelResult
deriving Repr, DecidableEq

/-- Observable outcome of `send_line_notification`: the returned boolean,
how many channel calls were made, and the backoff sleeps performed
(in seconds, in order). -/
structure SendOutcome where
  success : Bool
  attempts : Nat
  waits : List Nat
deriving Repr, DecidableEq

/-- The retry loop `for attempt in range(max_retries)` of
`send_line_notification` (lines 60-88), run over the list of remaining
attempt indices.  On success it returns `True`; on a 429 exception it sleeps
`retry_delay * 2 ** attempt` and continues unless this was the last allowed
attempt (then returns `False`); on any other exception it returns `False`
immediately.  Exhausting the list models the loop completing, where the
Python function falls off its end (returning a falsy `None`); with
`max_retries = 5` that branch is unreachable. -/
def run_attempts (channel : Nat → ChannelResult) : List Nat → SendOutcome
  | [] => ⟨false, 0, []⟩
  | attempt :: rest =>
    match channel attempt with
    | ChannelResult.ok => ⟨true, 1, []⟩
    | ChannelResult.rateLimited =>
      if attempt < max_retries - 1 then
        let r := run_attempts channel rest
        ⟨r.success, r.attempts + 1, (retry_delay * 2 ^ attempt) :: r.waits⟩
      else ⟨false, 1, []⟩
    | ChannelResult.fatal => ⟨false, 1, []⟩

/-- `send_line_notification(message_text)` (lines 53-88): the guard
`if not message_text: return False` fires exactly on the empty string
(Python truthiness of `str`), then the retry loop runs over
`range(max_retries)`. -/
def send_line_notification (channel : Nat → ChannelResult) (message_text : String) : SendOutcome :=
  if message_text = "" then ⟨false, 0, []⟩
  else run_attempts channel (List.range max_retries)

/-! ## AlertFormatter (src/main.py lines 119-137) -/

/-- Severity tag chosen at lines 122-126. -/
def SEVERE_TAG : String := "⛔️ รุนแรงมาก"

def MODERATE_TAG : String := "⚠️ รุนแรงปานกลาง"

def LIGHT_TAG : String := "ℹ️ เบา"

def PLACE_DEFAULT : String := "ไม่ระบุสถานที่"

/-- The conditional expression at lines 122-126:
severe when `magnitude >= 6.0`, else moderate when `magnitude >= 4.0`,
else light. -/
def severity (magnitude : ℚ) : String :=
  if magnitude ≥ 6 then SEVERE_TAG
  else if magnitude ≥ 4 then MODERATE_TAG
  else LIGHT_TAG

/-- External rendering collaborators used by the alert f-string: Python
`"{:.1f}"` and `"{:.2f}"` formatting, bare `"{}"` interpolation, and the
`datetime.fromtimestamp(t/1000, UTC).astimezone(Bangkok).strftime(...)`
pipeline applied to the epoch-millisecond time. -/
structure Render where
  fmt1 : ℚ → String
  fmt2 : ℚ → String
  fmtRaw : ℚ → String
  thaiTime : Int → String

/-- The alert text built at lines 128-137. -/
def format_alert (r : Render) (magnitude : ℚ) (place : String) (lat lon depth : ℚ)
    (t : Int) : String :=
  "🌋 แผ่นดินไหวล่าสุด (ทดสอบ API)!\n" ++
  severity magnitude ++ "\n" ++
  "ขนาด: " ++ r.fmt1 magnitude ++ " ริกเตอร์\n" ++
  "สถานที่: " ++ place ++ "\n" ++
  "พิกัด: (" ++ r.fmt2 lat ++ ", " ++ r.fmt2 lon ++ ")\n" ++
  "ความลึก: " ++ r.fmt1 depth ++ " กม.\n" ++
  "เวลา: " ++ r.thaiTime t ++ " (ไทย)\n" ++
  "ดูแผนที่: https://www.google.com/maps?q=" ++ r.fmtRaw lat ++ "," ++ r.fmtRaw lon

/-- A concrete rendering used for closed-term evaluation. -/
def render0 : Render := ⟨fun _ => "", fun _ => "", fun _ => "", fun _ => ""⟩

/-! ## Feed records and the EventRanker sort (src/main.py lines 90-164) -/

/-- One entry of `data["features"]`, with exactly the fields the program
reads.  `time` is `properties["time"]` (`none` when `properties` or
`"time"` is missing, in which case the sort key raises), `mag` is
`props.get("mag")`, `place` is `props.get("place", ...)` before its
default, and `coords` is `geometry["coordinates"]`
(`none` when geometry or the key is missing). -/
structure RawFeature where
  time : Option Int
  mag : Option ℚ
  place : Option String
  coords : Option (List ℚ)
deriving Repr, DecidableEq

/-- Tuple unpacking `lon, lat, depth = coords` (line 109): succeeds exactly
on a three-element list, otherwise Python raises ValueError. -/
def unpack3 : List ℚ → Option (ℚ × ℚ × ℚ)
  | [a, b, c] => some (a, b, c)
  | _ => none

/-- A record on which neither the sort key nor the loop body raises:
`properties["time"]` exists and `geometry["coordinates"]` is a
three-element list. -/
def wellformed (f : RawFeature) : Bool :=
  f.time.isSome &&
    (match f.coords with
     | some cs => (unpack3 cs).isSome
     | none => false)

/-- `sorted`'s key function `lambda x: x["properties"]["time"]` (line 101),
on records whose time is present. -/
def time_key (f : RawFeature) : Int := f.time.getD 0

/-- The sort key is evaluated on every record; any record with a missing
time raises KeyError inside `sorted` (lines 99-103 and 154-158). -/
def all_times_present (fs : List RawFeature) : Bool :=
  fs.all (fun f => f.time.isSome)

/-- Stable descending insertion: an element is placed before the first
element whose key is not larger, so that equal keys preserve the original
order, matching Python's stable `sorted(..., reverse=True)`. -/
def insert_desc {α : Type} (key : α → Int) (x : α) : List α → List α
  | [] => [x]
  | y :: ys => if key y ≤ key x then x :: y :: ys else y :: insert_desc key x ys

/-- `sorted(features, key=time, reverse=True)`: stable sort by key,
descending (lines 99-103, 154-158). -/
def sort_desc {α : Type} (key : α → Int) : List α → List α
  | [] => []
  | x :: xs => insert_desc key x (sort_desc key xs)

/-- The ranking pattern of `check_earthquakes`: sort descending by key,
return the first element satisfying the predicate (lines 99-116: the
`sorted(...)` call followed by the scan loop that `continue`s past
non-qualifying records and stops at the first qualifying one). -/
def select_most_recent {α : Type} (key : α → Int) (p : α → Bool) (l : List α) : Option α :=
  (sort_desc key l).find? p

/-! ## The polling cycle (src/main.py lines 91-143) -/

/-- Observable outcome of one `check_earthquakes` cycle: either an
exception escaped the cycle (`error`), or the cycle finished having
attempted the given dispatches, with the given dispatch success and the
resulting `latest_quake_time`. -/
inductive CycleOutcome where
  | error : CycleOutcome
  | done : List String → Bool → Int → CycleOutcome
deriving Repr, DecidableEq

def CycleOutcome.attempted : CycleOutcome → List String
  | CycleOutcome.error => []
  | CycleOutcome.done a _ _ => a

def CycleOutcome.newTime : CycleOutcome → Option Int
  | CycleOutcome.error => none
  | CycleOutcome.done _ _ t => some t

/-- The scan loop of `check_earthquakes` (lines 106-143) over the sorted
record list, with entry state `t0` (= `latest_quake_time`) and the channel
outcome of the dispatch abstracted as `ok`.  Per record: unpack the
coordinates (raising on missing/short/long `coords`), apply the magnitude
and bounding-box guards (`continue` past failures), then format the alert,
attempt the dispatch, update `latest_quake_time` only when the dispatch
returned success, and `break` unconditionally. -/
def quake_loop (r : Render) (ok : Bool) (t0 : Int) : List RawFeature → CycleOutcome
  | [] => CycleOutcome.done [] false t0
  | q :: rest =>
    match q.coords with
    | none => CycleOutcome.error
    | some cs =>
      match unpack3 cs with
      | none => CycleOutcome.error
      | some (lon, lat, depth) =>
        match q.mag with
        | none => quake_loop r ok t0 rest
        | some m =>
          if passes_magnitude (some m) = false then quake_loop r ok t0 rest
          else if is_near_thailand lat lon = false then quake_loop r ok t0 rest
          else
            match q.time with
            | none => CycleOutcome.error
            | some t =>
              let alert := format_alert r m (q.place.getD PLACE_DEFAULT) lat lon depth t
              if ok then CycleOutcome.done [alert] true t
              else CycleOutcome.done [alert] false t0

/-- One `check_earthquakes` cycle (lines 91-143).  `data = none` models a
fetch failure or a body without `"features"` (the early `return`);
otherwise the features are sorted by time descending (raising if any time
is missing) and scanned. -/
def check_earthquakes (r : Render) (ok : Bool) (t0 : Int)
    (data : Option (List RawFeature)) : CycleOutcome :=
  match data with
  | none => CycleOutcome.done [] false t0
  | some fs =>
    if all_times_present fs then quake_loop r ok t0 (sort_desc time_key fs)
    else CycleOutcome.error

/-- The Starting-phase scan of `main` (lines 159-164): over the sorted
records, unpack coordinates (`lon, lat, _ = coords`, raising on bad
geometry) and set `latest_quake_time` to the time of the first in-region
record — the bounding box only, no magnitude threshold. -/
def init_scan (t0 : Int) : List RawFeature → Except Unit Int
  | [] => Except.ok t0
  | q :: rest =>
    match q.coords with
    | none => Except.error ()
    | some cs =>
      match unpack3 cs with
      | none => Except.error ()
      | some (lon, lat, _d) =>
        if is_near_thailand lat lon then
          match q.time with
          | none => Except.error ()
          | some t => Except.ok t
        else init_scan t0 rest

/-- Starting-phase initialization of `latest_quake_time` (lines 147-164):
the global starts at `0` (line 35); when the first fetch succeeds and has
features they are sorted by time descending (raising if a time is missing)
and scanned for the most recent in-region record. -/
def main_init (data : Option (List RawFeature)) : Except Unit Int :=
  match data with
  | none => Except.ok 0
  | some fs =>
    if all_times_present fs then init_scan 0 (sort_desc time_key fs)
    else Except.error ()

/-- The qualification test of the scan loop as a predicate on a raw record
(the guards of lines 110-116 applied to its fields). -/
def feature_qualifies (f : RawFeature) : Bool :=
  match f.coords with
  | none => false
  | some cs =>
    match unpack3 cs with
    | none => false
    | some (lon, lat, _d) => passes_magnitude f.mag && is_near_thailand lat lon

/-- The alert the scan loop builds for a record (lines 119-137), as a
function of the record. -/
def alert_of (r : Render) (q : RawFeature) : String :=
  match q.coords with
  | none => ""
  | some cs =>
    match unpack3 cs with
    | none => ""
    | some (lon, lat, depth) =>
      format_alert r (q.mag.getD 0) (q.place.getD PLACE_DEFAULT) lat lon depth (q.time.getD 0)

/-! ## Lemmas about the stable descending sort -/

/-- Descending order by key, as a pairwise relation. -/
def KeyDesc {α : Type} (key : α → Int) (a b : α) : Prop := key b ≤ key a

lemma mem_insert_desc {α : Type} (key : α → Int) (x a : α) (l : List α) :
    a ∈ insert_desc key x l ↔ a = x ∨ a ∈ l := by
  induction l with
  | nil => simp [insert_desc]
  | cons y ys ih =>
    by_cases h : key y ≤ key x
    · simp [insert_desc, h]
    · simp [insert_desc, h, ih]
      tauto

lemma pairwise_insert_desc {α : Type} (key : α → Int) (x : α) (l : List α)
    (h : l.Pairwise (KeyDesc key)) :
    (insert_desc key x l).Pairwise (KeyDesc key) := by
  induction l with
  | nil => simp [insert_desc, List.pairwise_cons]
  | cons y ys ih =>
    rcases List.pairwise_cons.mp h with ⟨hy, hys⟩
    by_cases hle : key y ≤ key x
    · rw [insert_desc, if_pos hle]
      refine List.pairwise_cons.mpr ⟨?_, h⟩
      intro b hb
      rcases List.mem_cons.mp hb with rfl | hb
      · exact hle
      · exact le_trans (hy b hb) hle
    · rw [insert_desc, if_neg hle]
      refine List.pairwise_cons.mpr ⟨?_, ih hys⟩
      intro b hb
      rcases (mem_insert_desc key x b ys).mp hb with rfl | hb
      · exact le_of_lt (lt_of_not_le hle)
      · exact hy b hb

lemma pairwise_sort_desc {α : Type} (key : α → Int) (l : List α) :
    (sort_desc key l).Pairwise (KeyDesc key) := by
  induction l with
  | nil => simp [sort_desc]
  | cons x xs ih => exact pairwise_insert_desc key x _ ih

/-- Left-to-right accumulation of the most recent qualifying element:
`rank_step` keeps the earlier element on ties, so `rank` returns the
feed-order-first element among qualifying elements of maximal key. -/
def rank_step {α : Type} (key : α → Int) (p : α → Bool) (x : α) : Option α → Option α
  | none => if p x then some x else none
  | some e => if p x && decide (key e ≤ key x) then some x else some e

def rank {α : Type} (key : α → Int) (p : α → Bool) : List α → Option α
  | [] => none
  | x :: xs => rank_step key p x (rank key p xs)

lemma find?_insert_desc {α : Type} (key : α → Int) (p : α → Bool) (x : α)
    (l : List α) (h : l.Pairwise (KeyDesc key)) :
    (insert_desc key x l).find? p = rank_step key p x (l.find? p) := by
  induction l with
  | nil =>
    simp only [insert_desc, rank_step, List.find?]
    cases hpx : p x <;> simp [hpx]
  | cons y ys ih =>
    rcases List.pairwise_cons.mp h with ⟨hy, hys⟩
    by_cases hle : key y ≤ key x
    · rw [insert_desc, if_pos hle]
      cases hf : (y :: ys).find? p with
      | none =>
        simp only [rank_step]
        cases hpx : p x with
        | true => rw [List.find?_cons_of_pos _ hpx]; simp
        | false => rw [List.find?_cons_of_neg _ (by simp [hpx]), hf]; simp
      | some e =>
        have he : key e ≤ key x := by
          rcases List.mem_cons.mp (List.mem_of_find?_eq_some hf) with rfl | hmem
          · exact hle
          · exact le_trans (hy e hmem) hle
        simp only [rank_step, decide_eq_true he, Bool.and_true]
        cases hpx : p x with
        | true => rw [List.find?_cons_of_pos _ hpx]; simp
        | false => rw [List.find?_cons_of_neg _ (by simp [hpx]), hf]; simp
    · rw [insert_desc, if_neg hle]
      cases hpy : p y with
      | true =>
        rw [List.find?_cons_of_pos _ hpy, List.find?_cons_of_pos _ hpy]
        simp only [rank_step]
        have hc : (p x && decide (key y ≤ key x)) = false := by
          simp [hle]
        rw [hc]
        simp
      | false =>
        rw [List.find?_cons_of_neg _ (by simp [hpy]),
          List.find?_cons_of_neg _ (by simp [hpy])]
        exact ih hys

lemma select_eq_rank {α : Type} (key : α → Int) (p : α → Bool) (l : List α) :
    select_most_recent key p l = rank key p l := by
  induction l with
  | nil => rfl
  | cons x xs ih =>
    rw [select_most_recent, sort_desc,
      find?_insert_desc key p x _ (pairwise_sort_desc key xs), rank]
    rw [select_most_recent] at ih
    rw [ih]

lemma rank_none {α : Type} (key : α → Int) (p : α → Bool) (l : List α)
    (h : rank key p l = none) : ∀ x ∈ l, p x = false := by
  induction l with
  | nil => simp
  | cons x xs ih =>
    rw [rank] at h
    cases hxs : rank key p xs with
    | none =>
      rw [hxs] at h
      simp only [rank_step] at h
      intro a ha
      rcases List.mem_cons.mp ha with rfl | ha
      · by_contra hpa
        rw [if_pos (by simpa using hpa)] at h
        exact Option.some_ne_none a h
      · exact ih hxs a ha
    | some e =>
      rw [hxs] at h
      simp only [rank_step] at h
      by_cases hc : (p x && decide (key e ≤ key x)) = true <;>
        simp [hc] at h

lemma rank_spec {α : Type} (key : α → Int) (p : α → Bool) :
    ∀ (l : List α) (e : α), rank key p l = some e →
      p e = true ∧ e ∈ l ∧ (∀ x ∈ l, p x = true → key x ≤ key e) ∧
      l.find? (fun x => p x && decide (key x = key e)) = some e := by
  intro l
  induction l with
  | nil => intro e h; simp [rank] at h
  | cons x xs ih =>
    intro e h
    rw [rank] at h
    cases hxs : rank key p xs with
    | none =>
      rw [hxs] at h
      simp only [rank_step] at h
      by_cases hpx : p x = true
      · rw [if_pos (by simpa using hpx)] at h
        injection h with hex
        subst hex
        refine ⟨hpx, List.mem_cons_self _ _, ?_, ?_⟩
        · intro a ha hpa
          rcases List.mem_cons.mp ha with rfl | ha
          · exact le_refl _
          · exact absurd hpa (by simp [rank_none key p xs hxs a ha])
        · exact List.find?_cons_of_pos _ (by simp [hpx])
      · rw [if_neg (by simpa using hpx)] at h
        exact absurd h (Option.noConfusion)
    | some e1 =>
      rw [hxs] at h
      rcases ih e1 hxs with ⟨hpe1, hmem1, hmax1, hfind1⟩
      simp only [rank_step] at h
      by_cases hc : (p x && decide (key e1 ≤ key x)) = true
      · rw [if_pos hc] at h
        injection h with hex
        subst hex
        simp only [Bool.and_eq_true, decide_eq_true_eq] at hc
        rcases hc with ⟨hpx, hk⟩
        refine ⟨hpx, List.mem_cons_self _ _, ?_, ?_⟩
        · intro a ha hpa
          rcases List.mem_cons.mp ha with rfl | ha
          · exact le_refl _
          · exact le_trans (hmax1 a ha hpa) hk
        · exact List.find?_cons_of_pos _ (by simp [hpx])
      · rw [if_neg hc] at h
        injection h with hex
        subst hex
        refine ⟨hpe1, List.mem_cons_of_mem x hmem1, ?_, ?_⟩
        · intro a ha hpa
          rcases List.mem_cons.mp ha with rfl | ha
          · have hna : ¬ key e1 ≤ key a := by
              intro hk
              exact hc (by simp [hpa, hk])
            exact le_of_lt (lt_of_not_le hna)
          · exact hmax1 a ha hpa
        · have hhd : ¬ (p x && decide (key x = key e1)) = true := by
            intro hand
            simp only [Bool.and_eq_true, decide_eq_true_eq] at hand
            rcases hand with ⟨hpx, hkeq⟩
            exact hc (by simp [hpx, hkeq])
          rw [List.find?_cons_of_neg _ (by simpa using hhd)]
          exact hfind1

/-! ## Lemmas about the scan loop -/

/-- Shape of a scan-loop run: independent of the dispatch outcome and of the
entry state, the loop either raises, finds nothing, or attempts exactly one
alert, updating the state to the dispatched record's time exactly when the
dispatch succeeded. -/
lemma quake_loop_master (r : Render) (l : List RawFeature) :
    (∀ ok t0, quake_loop r ok t0 l = CycleOutcome.error) ∨
    (∀ ok t0, quake_loop r ok t0 l = CycleOutcome.done [] false t0) ∨
    (∃ a t, ∀ ok t0,
      quake_loop r ok t0 l = CycleOutcome.done [a] ok (if ok then t else t0)) := by
  induction l with
  | nil => exact Or.inr (Or.inl fun ok t0 => rfl)
  | cons q rest ih =>
    have hstep :
        (∀ ok t0, quake_loop r ok t0 (q :: rest) = quake_loop r ok t0 rest) ∨
        (∀ ok t0, quake_loop r ok t0 (q :: rest) = CycleOutcome.error) ∨
        (∃ a t, ∀ ok t0, quake_loop r ok t0 (q :: rest) =
          CycleOutcome.done [a] ok (if ok then t else t0)) := by
      cases hco : q.coords with
      | none => exact Or.inr (Or.inl fun ok t0 => by simp only [quake_loop, hco])
      | some cs =>
        cases hu : unpack3 cs with
        | none => exact Or.inr (Or.inl fun ok t0 => by simp only [quake_loop, hco, hu])
        | some triple =>
          obtain ⟨lon, lat, depth⟩ := triple
          cases hm : q.mag with
          | none => exact Or.inl fun ok t0 => by simp only [quake_loop, hco, hu, hm]
          | some m =>
            by_cases hpm : passes_magnitude (some m) = false
            · refine Or.inl fun ok t0 => ?_
              simp only [quake_loop, hco, hu, hm]
              rw [if_pos hpm]
            · by_cases hnear : is_near_thailand lat lon = false
              · refine Or.inl fun ok t0 => ?_
                simp only [quake_loop, hco, hu, hm]
                rw [if_neg hpm, if_pos hnear]
              · cases ht : q.time with
                | none =>
                  refine Or.inr (Or.inl fun ok t0 => ?_)
                  simp only [quake_loop, hco, hu, hm, ht]
                  rw [if_neg hpm, if_neg hnear]
                | some t =>
                  refine Or.inr (Or.inr
                    ⟨format_alert r m (q.place.getD PLACE_DEFAULT) lat lon depth t, t,
                      fun ok t0 => ?_⟩)
                  simp only [quake_loop, hco, hu, hm, ht]
                  rw [if_neg hpm, if_neg hnear]
                  cases ok <;> simp
    rcases hstep with hskip | herr | hdone
    · rcases ih with h1 | h2 | ⟨a, t, h3⟩
      · exact Or.inl fun ok t0 => (hskip ok t0).trans (h1 ok t0)
      · exact Or.inr (Or.inl fun ok t0 => (hskip ok t0).trans (h2 ok t0))
      · exact Or.inr (Or.inr ⟨a, t, fun ok t0 => (hskip ok t0).trans (h3 ok t0)⟩)
    · exact Or.inl herr
    · exact Or.inr (Or.inr hdone)

/-- Shape of a whole cycle, lifted from `quake_loop_master`. -/
lemma check_master (r : Render) (data : Option (List RawFeature)) :
    (∀ ok t0, check_earthquakes r ok t0 data = CycleOutcome.error) ∨
    (∀ ok t0, check_earthquakes r ok t0 data = CycleOutcome.done [] false t0) ∨
    (∃ a t, ∀ ok t0,
      check_earthquakes r ok t0 data = CycleOutcome.done [a] ok (if ok then t else t0)) := by
  cases data with
  | none =>
    refine Or.inr (Or.inl ?_)
    intro ok t0
    rfl
  | some fs =>
    by_cases hall : all_times_present fs = true
    · rcases quake_loop_master r (sort_desc time_key fs) with h1 | h2 | ⟨a, t, h3⟩
      · refine Or.inl ?_
        intro ok t0
        rw [check_earthquakes, if_pos hall]
        exact h1 ok t0
      · refine Or.inr (Or.inl ?_)
        intro ok t0
        rw [check_earthquakes, if_pos hall]
        exact h2 ok t0
      · refine Or.inr (Or.inr ⟨a, t, ?_⟩)
        intro ok t0
        rw [check_earthquakes, if_pos hall]
        exact h3 ok t0
    · refine Or.inl ?_
      intro ok t0
      rw [check_earthquakes, if_neg hall]

lemma mem_sort_desc {α : Type} (key : α → Int) (a : α) (l : List α) :
    a ∈ sort_desc key l ↔ a ∈ l := by
  induction l with
  | nil => simp [sort_desc]
  | cons x xs ih =>
    rw [sort_desc, mem_insert_desc, ih, List.mem_cons]

/-- Pieces of a well-formed record. -/
lemma wellformed_elim (f : RawFeature) (h : wellformed f = true) :
    f.time.isSome = true ∧
      ∃ cs lon lat depth, f.coords = some cs ∧ unpack3 cs = some (lon, lat, depth) := by
  rw [wellformed, Bool.and_eq_true] at h
  rcases h with ⟨ht, hc⟩
  refine ⟨ht, ?_⟩
  cases hco : f.coords with
  | none => rw [hco] at hc; exact absurd hc (by simp)
  | some cs =>
    rw [hco] at hc
    simp only at hc
    cases hu : unpack3 cs with
    | none => rw [hu] at hc; exact absurd hc (by simp)
    | some triple =>
      obtain ⟨lon, lat, depth⟩ := triple
      exact ⟨cs, lon, lat, depth, rfl, hu⟩

lemma quake_loop_no_error (r : Render) (ok : Bool) (t0 : Int) (l : List RawFeature)
    (h : ∀ f ∈ l, wellformed f = true) :
    quake_loop r ok t0 l ≠ CycleOutcome.error := by
  induction l with
  | nil => simp [quake_loop]
  | cons q rest ih =>
    rcases wellformed_elim q (h q (List.mem_cons_self _ _)) with
      ⟨ht, cs, lon, lat, depth, hco, hu⟩
    have ihm := ih fun f hf => h f (List.mem_cons_of_mem q hf)
    obtain ⟨t, ht⟩ := Option.isSome_iff_exists.mp ht
    cases hm : q.mag with
    | none => simp only [quake_loop, hco, hu, hm]; exact ihm
    | some m =>
      by_cases hpm : passes_magnitude (some m) = false
      · simp only [quake_loop, hco, hu, hm]
        rw [if_pos hpm]
        exact ihm
      · by_cases hnear : is_near_thailand lat lon = false
        · simp only [quake_loop, hco, hu, hm]
          rw [if_neg hpm, if_pos hnear]
          exact ihm
        · simp only [quake_loop, hco, hu, hm, ht]
          rw [if_neg hpm, if_neg hnear]
          cases ok <;> simp

lemma init_scan_no_error (t0 : Int) (l : List RawFeature)
    (h : ∀ f ∈ l, wellformed f = true) :
    init_scan t0 l ≠ Except.error () := by
  induction l with
  | nil => simp [init_scan]
  | cons q rest ih =>
    rcases wellformed_elim q (h q (List.mem_cons_self _ _)) with
      ⟨ht, cs, lon, lat, depth, hco, hu⟩
    have ihm := ih fun f hf => h f (List.mem_cons_of_mem q hf)
    obtain ⟨t, ht⟩ := Option.isSome_iff_exists.mp ht
    by_cases hnear : is_near_thailand lat lon = true
    · simp only [init_scan, hco, hu, ht]
      rw [if_pos hnear]
      simp
    · simp only [init_scan, hco, hu, ht]
      rw [if_neg hnear]
      exact ihm

lemma all_times_of_wellformed (fs : List RawFeature)
    (h : ∀ f ∈ fs, wellformed f = true) : all_times_present fs = true := by
  rw [all_times_present, List.all_eq_true]
  intro f hf
  exact (wellformed_elim f (h f hf)).1

/-- On a list of well-formed records, the scan loop attempts exactly the
alert of the first qualifying record, if any. -/
lemma quake_loop_find (r : Render) (ok : Bool) (t0 : Int) (l : List RawFeature)
    (h : ∀ f ∈ l, wellformed f = true) :
    (quake_loop r ok t0 l).attempted =
      match l.find? feature_qualifies with
      | none => []
      | some q => [alert_of r q] := by
  induction l with
  | nil => simp [quake_loop, CycleOutcome.attempted, List.find?]
  | cons q rest ih =>
    rcases wellformed_elim q (h q (List.mem_cons_self _ _)) with
      ⟨ht, cs, lon, lat, depth, hco, hu⟩
    have ihm := ih fun f hf => h f (List.mem_cons_of_mem q hf)
    obtain ⟨t, ht⟩ := Option.isSome_iff_exists.mp ht
    cases hm : q.mag with
    | none =>
      have hq : feature_qualifies q = false := by
        simp only [feature_qualifies, hco, hu, hm, passes_magnitude, Bool.false_and]
      rw [List.find?_cons_of_neg _ (by simp [hq])]
      simp only [quake_loop, hco, hu, hm]
      exact ihm
    | some m =>
      by_cases hpm : passes_magnitude (some m) = false
      · have hq : feature_qualifies q = false := by
          simp only [feature_qualifies, hco, hu, hm, hpm, Bool.false_and]
        rw [List.find?_cons_of_neg _ (by simp [hq])]
        simp only [quake_loop, hco, hu, hm]
        rw [if_pos hpm]
        exact ihm
      · by_cases hnear : is_near_thailand lat lon = false
        · have hq : feature_qualifies q = false := by
            simp only [feature_qualifies, hco, hu, hm, hnear, Bool.and_false]
          rw [List.find?_cons_of_neg _ (by simp [hq])]
          simp only [quake_loop, hco, hu, hm]
          rw [if_neg hpm, if_pos hnear]
          exact ihm
        · have hq : feature_qualifies q = true := by
            simp only [feature_qualifies, hco, hu]
            rw [hm]
            simp only [Bool.and_eq_true]
            exact ⟨by simpa using hpm, by simpa using hnear⟩
          rw [List.find?_cons_of_pos _ hq]
          have halert : alert_of r q =
              format_alert r m (q.place.getD PLACE_DEFAULT) lat lon depth t := by
            simp only [alert_of, hco, hu, hm, ht, Option.getD_some]
          simp only [quake_loop, hco, hu, hm, ht]
          rw [if_neg hpm, if_neg hnear]
          cases ok <;> simp [CycleOutcome.attempted, halert]

/-! ## Claim theorems: NotificationDispatcher -/

/-- C1: for a channel that reports rate-limiting (429) on the first 4
attempts and succeeds on the 5th, `send_line_notification` returns success
after exactly 5 attempts, sleeping `retry_delay * 2 ^ attempt`
= 5, 10, 20, 40 seconds between consecutive attempts. -/
theorem C1_retry_success_after_rate_limits (ch : Nat → ChannelResult) (msg : String)
    (hmsg : msg ≠ "")
    (h4 : ∀ i, i < 4 → ch i = ChannelResult.rateLimited)
    (h5 : ch 4 = ChannelResult.ok) :
    send_line_notification ch msg = ⟨true, 5, [5, 10, 20, 40]⟩ := by
  have e0 := h4 0 (by norm_num)
  have e1 := h4 1 (by norm_num)
  have e2 := h4 2 (by norm_num)
  have e3 := h4 3 (by norm_num)
  rw [send_line_notification, if_neg hmsg]
  have hr : List.range max_retries = [0, 1, 2, 3, 4] := rfl
  rw [hr]
  norm_num [run_attempts, e0, e1, e2, e3, h5, max_retries, retry_delay]

/-- Channel reporting 429 on the first four calls, success on the fifth. -/
def ch_four_then_ok : Nat → ChannelResult :=
  fun i => if i < 4 then ChannelResult.rateLimited else ChannelResult.ok

/-- Witness for C1 at a concrete channel and message. -/
theorem C1_retry_witness :
    send_line_notification ch_four_then_ok "hello" = ⟨true, 5, [5, 10, 20, 40]⟩ :=
  C1_retry_success_after_rate_limits ch_four_then_ok "hello" (by decide)
    (fun i hi => by interval_cases i <;> rfl) rfl

/-- C9: a channel rate-limited on all 5 allowed attempts makes the send
return failure (the rate-limit-exhausted outcome, signalled as `False`
after the `max_retries` log) after exactly 5 attempts and never a 6th;
and a channel whose first non-429 failure comes at attempt `k` (earlier
attempts all rate-limited) makes the send return failure immediately after
attempt `k`, with no retry beyond it. -/
theorem C9_exhaustion_and_fatal (ch : Nat → ChannelResult) (msg : String)
    (hmsg : msg ≠ "") :
    ((∀ i, i < 5 → ch i = ChannelResult.rateLimited) →
      send_line_notification ch msg = ⟨false, 5, [5, 10, 20, 40]⟩) ∧
    (∀ k, k < 5 → (∀ i, i < k → ch i = ChannelResult.rateLimited) →
      ch k = ChannelResult.fatal →
      (send_line_notification ch msg).success = false ∧
      (send_line_notification ch msg).attempts = k + 1) := by
  have hr : List.range max_retries = [0, 1, 2, 3, 4] := rfl
  constructor
  · intro hrl
    have e0 := hrl 0 (by norm_num)
    have e1 := hrl 1 (by norm_num)
    have e2 := hrl 2 (by norm_num)
    have e3 := hrl 3 (by norm_num)
    have e4 := hrl 4 (by norm_num)
    rw [send_line_notification, if_neg hmsg, hr]
    norm_num [run_attempts, e0, e1, e2, e3, e4, max_retries, retry_delay]
  · intro k hk hrl hfat
    rw [send_line_notification, if_neg hmsg, hr]
    interval_cases k
    · norm_num [run_attempts, hfat, max_retries, retry_delay]
    · have e0 := hrl 0 (by norm_num)
      norm_num [run_attempts, e0, hfat, max_retries, retry_delay]
    · have e0 := hrl 0 (by norm_num)
      have e1 := hrl 1 (by norm_num)
      norm_num [run_attempts, e0, e1, hfat, max_retries, retry_delay]
    · have e0 := hrl 0 (by norm_num)
      have e1 := hrl 1 (by norm_num)
      have e2 := hrl 2 (by norm_num)
      norm_num [run_attempts, e0, e1, e2, hfat, max_retries, retry_delay]
    · have e0 := hrl 0 (by norm_num)
      have e1 := hrl 1 (by norm_num)
      have e2 := hrl 2 (by norm_num)
      have e3 := hrl 3 (by norm_num)
      norm_num [run_attempts, e0, e1, e2, e3, hfat, max_retries, retry_delay]

/-- Channel rate-limited on every call. -/
def ch_always_rl : Nat → ChannelResult := fun _ => ChannelResult.rateLimited

/-- Channel failing with a non-429 error on every call. -/
def ch_always_fatal : Nat → ChannelResult := fun _ => ChannelResult.fatal

/-- Witness for C9: exhaustion after 5 rate-limited attempts, and immediate
failure after a first-attempt fatal error. -/
theorem C9_dispatcher_witness :
    send_line_notification ch_always_rl "hello" = ⟨false, 5, [5, 10, 20, 40]⟩ ∧
    (send_line_notification ch_always_fatal "hello").success = false ∧
    (send_line_notification ch_always_fatal "hello").attempts = 0 + 1 :=
  ⟨(C9_exhaustion_and_fatal ch_always_rl "hello" (by decide)).1 (fun i _ => rfl),
    (C9_exhaustion_and_fatal ch_always_fatal "hello" (by decide)).2 0 (by norm_num)
      (fun i hi => absurd hi (Nat.not_lt_zero i)) rfl⟩

/-- Channel succeeding on every call. -/
def ch_always_ok : Nat → ChannelResult := fun _ => ChannelResult.ok

/-- C8 counterexample: a whitespace-only message is NOT guarded.  On the
blank text `" "` the send does not return false-with-no-attempt; the guard
`if not message_text` fires only on the empty string, so the blank message
is broadcast (here: one successful attempt). -/
theorem C8_blank_message_counterexample :
    ¬ ((send_line_notification ch_always_ok " ").success = false ∧
       (send_line_notification ch_always_ok " ").attempts = 0) := by
  decide

/-- C8 amended: for the EMPTY message text the send returns false without
making any channel attempt (and performs no backoff sleep); a
whitespace-only message is not caught by the guard. -/
theorem C8_empty_message_no_attempt (ch : Nat → ChannelResult) :
    send_line_notification ch "" = ⟨false, 0, []⟩ := rfl

/-! ## Claim theorems: RegionFilter and AlertFormatter -/

/-- C4: the qualification test is true iff the magnitude is present and at
least 2.5, the latitude lies in [5, 22] and the longitude in [92, 108],
all bounds inclusive; an absent magnitude never qualifies. -/
theorem C4_region_filter_iff (mag : Option ℚ) (lat lon : ℚ) :
    event_qualifies mag lat lon = true ↔
      ((∃ m, mag = some m ∧ 5 / 2 ≤ m) ∧
        5 ≤ lat ∧ lat ≤ 22 ∧ 92 ≤ lon ∧ lon ≤ 108) := by
  have hM : MIN_MAGNITUDE = 5 / 2 := by norm_num [MIN_MAGNITUDE]
  cases mag with
  | none =>
    simp [event_qualifies, passes_magnitude]
  | some m =>
    simp only [event_qualifies, passes_magnitude, is_near_thailand, hM,
      LAT_MIN, LAT_MAX, LON_MIN, LON_MAX, Bool.and_eq_true, Bool.not_eq_true',
      decide_eq_false_iff_not, decide_eq_true_eq, not_or, not_lt,
      Option.some.injEq]
    constructor
    · rintro ⟨⟨_h0, hm⟩, hlat1, hlat2, hlon1, hlon2⟩
      exact ⟨⟨m, rfl, hm⟩, hlat1, hlat2, hlon1, hlon2⟩
    · rintro ⟨⟨m1, hm1, hge⟩, hlat1, hlat2, hlon1, hlon2⟩
      cases hm1
      refine ⟨⟨?_, hge⟩, hlat1, hlat2, hlon1, hlon2⟩
      intro h0
      rw [h0] at hge
      norm_num at hge


/-- C7: the severity tag is "severe" iff magnitude ≥ 6.0, "moderate" iff
4.0 ≤ magnitude < 6.0, and "light" iff magnitude < 4.0, lower bounds
inclusive; in particular 5.999 is moderate, 6.0 severe, 3.999 light and
4.0 moderate. -/
theorem C7_severity_bands (m : ℚ) :
    (severity m = SEVERE_TAG ↔ 6 ≤ m) ∧
    (severity m = MODERATE_TAG ↔ 4 ≤ m ∧ m < 6) ∧
    (severity m = LIGHT_TAG ↔ m < 4) ∧
    severity (5999 / 1000) = MODERATE_TAG ∧
    severity 6 = SEVERE_TAG ∧
    severity (3999 / 1000) = LIGHT_TAG ∧
    severity 4 = MODERATE_TAG := by
  have hsm : SEVERE_TAG ≠ MODERATE_TAG := by decide
  have hsl : SEVERE_TAG ≠ LIGHT_TAG := by decide
  have hml : MODERATE_TAG ≠ LIGHT_TAG := by decide
  refine ⟨?_, ?_, ?_, ?_, ?_, ?_, ?_⟩
  · rw [severity]
    rcases le_or_lt 6 m with h6 | h6
    · rw [if_pos (by exact h6)]
      simp [h6]
    · rw [if_neg (by exact not_le.mpr h6)]
      rcases le_or_lt 4 m with h4 | h4
      · rw [if_pos (by exact h4)]
        simp [hsm.symm, not_le.mpr h6]
      · rw [if_neg (by exact not_le.mpr h4)]
        simp [hsl.symm, not_le.mpr h6]
  · rw [severity]
    rcases le_or_lt 6 m with h6 | h6
    · rw [if_pos (by exact h6)]
      constructor
      · intro h; exact absurd h hsm
      · rintro ⟨_, hlt⟩; exact absurd h6 (not_le.mpr hlt)
    · rw [if_neg (by exact not_le.mpr h6)]
      rcases le_or_lt 4 m with h4 | h4
      · rw [if_pos (by exact h4)]
        simp [h4, h6]
      · rw [if_neg (by exact not_le.mpr h4)]
        constructor
        · intro h; exact absurd h.symm hml
        · rintro ⟨hge, _⟩; exact absurd h4 (not_lt.mpr hge)
  · rw [severity]
    rcases le_or_lt 6 m with h6 | h6
    · rw [if_pos (by exact h6)]
      constructor
      · intro h; exact absurd h hsl
      · intro h; exact absurd (le_trans (by norm_num) h6) (not_le.mpr h)
    · rw [if_neg (by exact not_le.mpr h6)]
      rcases le_or_lt 4 m with h4 | h4
      · rw [if_pos (by exact h4)]
        constructor
        · intro h; exact absurd h hml
        · intro h; exact absurd h4 (not_le.mpr h)
      · rw [if_neg (by exact not_le.mpr h4)]
        simp [h4]
  · rw [severity, if_neg (by norm_num), if_pos (by norm_num)]
  · rw [severity, if_pos (by norm_num)]
  · rw [severity, if_neg (by norm_num), if_neg (by norm_num)]
  · rw [severity, if_neg (by norm_num), if_pos (by norm_num)]

/-! ## Claim theorems: EventRanker -/

/-- C6: whenever the sorted-descending-then-first-qualifying selection
returns an element, that element qualifies, belongs to the input, its key
(occurredAtMillis) is at least the key of every other qualifying element,
and it is the earliest element in the original feed order among qualifying
elements of that maximal key (stable ties, as Python's stable
`sorted(..., reverse=True)` preserves feed order on equal keys). -/
theorem C6_ranker_selects_max_stable {α : Type} (key : α → Int) (p : α → Bool)
    (l : List α) (e : α) (h : select_most_recent key p l = some e) :
    p e = true ∧ e ∈ l ∧ (∀ x ∈ l, p x = true → key x ≤ key e) ∧
      l.find? (fun x => p x && decide (key x = key e)) = some e := by
  rw [select_eq_rank] at h
  exact rank_spec key p l e h

/-- Ranker witness data: key = first component (timestamp), predicate =
second component at least 2; the two qualifying elements share the maximal
key 10 and the one earlier in feed order is picked. -/
def wkey : Int × Int → Int := fun x => x.1

def wpred : Int × Int → Bool := fun x => decide (2 ≤ x.2)

def wlist : List (Int × Int) := [(5, 7), (10, 2), (10, 3)]

/-- Witness for C6 at a concrete list with a timestamp tie. -/
theorem C6_ranker_witness :
    wpred (10, 2) = true ∧ ((10, 2) : Int × Int) ∈ wlist ∧
      (∀ x ∈ wlist, wpred x = true → wkey x ≤ wkey (10, 2)) ∧
      wlist.find? (fun x => wpred x && decide (wkey x = wkey (10, 2))) = some (10, 2) :=
  C6_ranker_selects_max_stable wkey wpred wlist (10, 2) (by decide)

/-! ## Claim theorems: PollingLoop cycles -/

/-- In-region record (lat 10, lon 100) below the magnitude threshold, most
recent in the feed. -/
def quakeA : RawFeature := ⟨some 100, some 1, some "A", some [100, 10, 5]⟩

/-- Older qualifying record (magnitude 5, same in-region coordinates). -/
def quakeB : RawFeature := ⟨some 50, some 5, some "B", some [100, 10, 5]⟩

/-- A single qualifying record. -/
def quakeGood : RawFeature := ⟨some 100, some 5, some "Bangkok", some [100, 13, 10]⟩

/-- A record with missing geometry. -/
def quakeBad : RawFeature := ⟨some 10, some 5, none, none⟩

/-- A record with missing time. -/
def quakeNoTime : RawFeature := ⟨none, some 5, none, some [100, 13, 10]⟩

/-- C10: a cycle attempts at most one dispatch, and the set of attempts is
the same whether the dispatch succeeds or fails — a failed dispatch does
not fall through to an older qualifying record (the loop breaks
unconditionally after the first qualifying record). -/
theorem C10_at_most_one_dispatch (r : Render) (ok : Bool) (t0 : Int)
    (data : Option (List RawFeature)) :
    (check_earthquakes r ok t0 data).attempted.length ≤ 1 ∧
    (check_earthquakes r false t0 data).attempted =
      (check_earthquakes r true t0 data).attempted := by
  rcases check_master r data with h1 | h2 | ⟨a, t, h3⟩
  · rw [h1 ok t0, h1 false t0, h1 true t0]
    simp [CycleOutcome.attempted]
  · rw [h2 ok t0, h2 false t0, h2 true t0]
    simp [CycleOutcome.attempted]
  · rw [h3 ok t0, h3 false t0, h3 true t0]
    simp [CycleOutcome.attempted]

/-- C3: on a well-formed feed whose most recent qualifying record is `q`
(the sorted-descending first-qualifying selection), a Running cycle formats
and attempts exactly the alert of `q`, for EVERY entry value of
`latest_quake_time` — in particular two consecutive cycles on an unchanged
feed attempt the same formatted message twice, whether or not `q`'s
timestamp equals the state. -/
theorem C3_always_reannounce (r : Render) (fs : List RawFeature) (q : RawFeature)
    (hwf : ∀ f ∈ fs, wellformed f = true)
    (hsel : select_most_recent time_key feature_qualifies fs = some q) :
    ∀ ok t0, (check_earthquakes r ok t0 (some fs)).attempted = [alert_of r q] := by
  intro ok t0
  have hall := all_times_of_wellformed fs hwf
  simp only [check_earthquakes]
  rw [if_pos hall,
    quake_loop_find r ok t0 _ (fun f hf => hwf f ((mem_sort_desc time_key f fs).mp hf))]
  rw [select_most_recent] at hsel
  rw [hsel]

/-- Witness for C3: the same single-record feed, dispatched from state 0
and again from state 100 (the very timestamp of the record), attempts the
same formatted message both times. -/
theorem C3_reannounce_witness :
    (check_earthquakes render0 true 0 (some [quakeGood])).attempted =
      [alert_of render0 quakeGood] ∧
    (check_earthquakes render0 true 100 (some [quakeGood])).attempted =
      [alert_of render0 quakeGood] :=
  ⟨C3_always_reannounce render0 [quakeGood] quakeGood (by decide) (by rfl) true 0,
   C3_always_reannounce render0 [quakeGood] quakeGood (by decide) (by rfl) true 100⟩

/-- C2 counterexample: the Starting phase initializes `latest_quake_time`
ignoring the magnitude threshold, so with a feed whose most recent
in-region record is below threshold (time 100) and whose most recent
QUALIFYING record is older (time 50), the first successful Running cycle
lowers `latest_quake_time` from 100 to 50 — not monotonically
non-decreasing. -/
theorem C2_monotonicity_counterexample :
    main_init (some [quakeA, quakeB]) = Except.ok 100 ∧
    (check_earthquakes render0 true 100 (some [quakeA, quakeB])).newTime = some 50 ∧
    ¬ ((100 : Int) ≤ 50) := by
  refine ⟨by rfl, by rfl, by decide⟩

/-- C2 amended: `latest_quake_time` is indeed updated only after a
confirmed successful dispatch — a cycle whose dispatch fails, or which
attempts no dispatch, leaves it unchanged (unless the cycle raises) — but
it is NOT monotonically non-decreasing across Starting followed by Running
cycles. -/
theorem C2_update_only_on_success (r : Render) (t0 : Int)
    (data : Option (List RawFeature)) :
    ((check_earthquakes r false t0 data).newTime = some t0 ∨
      check_earthquakes r false t0 data = CycleOutcome.error) ∧
    (∀ ok, (check_earthquakes r ok t0 data).attempted = [] →
      ((check_earthquakes r ok t0 data).newTime = some t0 ∨
        check_earthquakes r ok t0 data = CycleOutcome.error)) := by
  rcases check_master r data with h1 | h2 | ⟨a, t, h3⟩
  · exact ⟨Or.inr (h1 false t0), fun ok _ => Or.inr (h1 ok t0)⟩
  · refine ⟨Or.inl ?_, fun ok _ => Or.inl ?_⟩
    · rw [h2 false t0]
      rfl
    · rw [h2 ok t0]
      rfl
  · refine ⟨Or.inl ?_, fun ok hat => ?_⟩
    · rw [h3 false t0]
      simp [CycleOutcome.newTime]
    · rw [h3 ok t0] at hat
      simp [CycleOutcome.attempted] at hat

/-- Witness for C2's amended statement: a cycle that dispatches nothing
leaves the state unchanged. -/
theorem C2_update_witness :
    (check_earthquakes render0 true 3 none).newTime = some 3 ∨
      check_earthquakes render0 true 3 none = CycleOutcome.error :=
  (C2_update_only_on_success render0 3 none).2 true rfl

/-- C5 counterexample: records with missing geometry or time are NOT
dropped silently.  A feed holding a record without geometry makes both the
Running cycle and the Starting scan raise (KeyError at the coordinate
access), and a feed holding a record without a time makes the sort key
raise, instead of completing normally. -/
theorem C5_malformed_record_errors :
    check_earthquakes render0 true 0 (some [quakeBad]) = CycleOutcome.error ∧
    main_init (some [quakeBad]) = Except.error () ∧
    check_earthquakes render0 true 0 (some [quakeNoTime]) = CycleOutcome.error ∧
    main_init (some [quakeNoTime]) = Except.error () := by
  refine ⟨by rfl, by rfl, by rfl, by rfl⟩

/-- C5 amended: a malformed record is not dropped: a missing time makes the
sort raise and missing/invalid geometry makes the scan raise when reached,
in both phases; a feed is processed without any escaping error exactly when
every record carries a time and a three-element coordinate list. -/
theorem C5_wellformed_feed_processes (r : Render) (ok : Bool) (t0 : Int)
    (fs : List RawFeature) (h : ∀ f ∈ fs, wellformed f = true) :
    check_earthquakes r ok t0 (some fs) ≠ CycleOutcome.error ∧
    main_init (some fs) ≠ Except.error () := by
  have hall := all_times_of_wellformed fs h
  have hsorted : ∀ f ∈ sort_desc time_key fs, wellformed f = true :=
    fun f hf => h f ((mem_sort_desc time_key f fs).mp hf)
  constructor
  · simp only [check_earthquakes]
    rw [if_pos hall]
    exact quake_loop_no_error r ok t0 _ hsorted
  · simp only [main_init]
    rw [if_pos hall]
    exact init_scan_no_error 0 _ hsorted

/-- Witness for C5's amended statement at a concrete well-formed feed. -/
theorem C5_wellformed_witness :
    check_earthquakes render0 true 0 (some [quakeGood]) ≠ CycleOutcome.error ∧
    main_init (some [quakeGood]) ≠ Except.error () :=
  C5_wellformed_feed_processes render0 true 0 [quakeGood] (by decide)
